import Mathlib

/-!
Verification development for the Pi Network claim bots.

The repository holds four scripts: a ledger monitor plus three sweeper-bot
variants in `src/unnamed/part_000` (called V1, V2, V3 below, in file order),
and the flood bot `PiNetworkPrecisionClaimBot` in `src/pi-js-bot.js`.
The definitions below are shallow embeddings of the arithmetic and control
flow of those scripts; machine integers are modelled by `Nat`/`Int`
(JavaScript numbers stay far below 2^53 here, so overflow is not an issue),
fractional values (moving averages) by `Rat`, and fallible evaluation by
`Option`.  Definitions whose doc comment says so follow the specification's
words instead; everything else is translated from the source.
-/

namespace PiBot

/-- Configuration of sweeper variant V1 (`src/unnamed/part_000`, lines 59-72). -/
structure ConfigV1 where
  baseFee : ℕ
  maxFee : ℕ
  feePriorityMultiplier : ℕ
  maxSubmissionAttempts : ℕ
  floodCount : ℕ
  timeboundGrace : ℕ
  earlySubmitOffset : ℕ

/-- The literal V1 configuration values from the source. -/
def configV1 : ConfigV1 :=
  { baseFee := 100000, maxFee := 500000, feePriorityMultiplier := 10,
    maxSubmissionAttempts := 3, floodCount := 3,
    timeboundGrace := 60, earlySubmitOffset := 1 }

/-- Claim-condition predicate tree, as the Horizon JSON shapes read by the
bots: terminal absolute-time bounds `abs_before_epoch` and `abs_after`, a
`not` wrapper, and `and` / `or` nodes carrying a list of children. -/
inductive Predicate where
  | absBeforeEpoch : ℕ → Predicate
  | absAfter : ℕ → Predicate
  | notPred : Predicate → Predicate
  | andPred : List Predicate → Predicate
  | orPred : List Predicate → Predicate
  | unconditional : Predicate

/-- V1 `extractMinTime` (`part_000`, lines 103-118): the unlock time of the
matching claimant's predicate; `abs_after` or `not.abs_before_epoch` at the
top level, `0` otherwise (JavaScript falsiness makes a `0` bound fall
through to the default return as well). -/
def extractMinTime : Predicate → ℕ
  | Predicate.absAfter t => t
  | Predicate.notPred (Predicate.absBeforeEpoch t) => t
  | _ => 0

mutual

/-- V3 `findUnlockTimeInPredicate` (`part_000`, lines 893-922): a direct
`abs_before_epoch` or `not.abs_before_epoch` bound resolves to the bound
times 1000 (milliseconds); `and` and `or` nodes are both scanned left to
right and the first child whose subtree resolves wins (`if (time) return
time`, so a zero bound never resolves); anything else yields `null`. -/
def findUnlockTimeInPredicate : Predicate → Option ℕ
  | Predicate.absBeforeEpoch t => if t = 0 then none else some (t * 1000)
  | Predicate.absAfter _ => none
  | Predicate.notPred (Predicate.absBeforeEpoch t) =>
      if t = 0 then none else some (t * 1000)
  | Predicate.notPred _ => none
  | Predicate.andPred cs => findFirstUnlock cs
  | Predicate.orPred cs => findFirstUnlock cs
  | Predicate.unconditional => none

/-- The child loops of `findUnlockTimeInPredicate`: first resolving child. -/
def findFirstUnlock : List Predicate → Option ℕ
  | [] => none
  | p :: ps =>
      match findUnlockTimeInPredicate p with
      | some t => some t
      | none => findFirstUnlock ps

end

mutual

/-- Modelled from the amended specification wording: the list of resolvable
terminal time bounds of a predicate tree in document order, each times 1000
(milliseconds).  Used as the reference against which the source function
`findUnlockTimeInPredicate` is compared. -/
def resolvedBounds : Predicate → List ℕ
  | Predicate.absBeforeEpoch t => if t = 0 then [] else [t * 1000]
  | Predicate.absAfter _ => []
  | Predicate.notPred (Predicate.absBeforeEpoch t) => if t = 0 then [] else [t * 1000]
  | Predicate.notPred _ => []
  | Predicate.andPred cs => resolvedBoundsList cs
  | Predicate.orPred cs => resolvedBoundsList cs
  | Predicate.unconditional => []

/-- Concatenated resolvable bounds of a list of children, in order. -/
def resolvedBoundsList : List Predicate → List ℕ
  | [] => []
  | p :: ps => resolvedBounds p ++ resolvedBoundsList ps

end

/-- V1 `buildAndSign` timebounds (`part_000`, lines 133-160): the built
transaction's validity window is `(unlockTime, unlockTime + timeboundGrace)`.
The source computes `newLowerBound` from `Date.now()` but never uses it, and
`earlySubmitOffset` is not consulted. -/
def buildAndSignTimebounds (p : Predicate) : ℕ × ℕ :=
  let unlockTime := extractMinTime p
  (unlockTime, unlockTime + configV1.timeboundGrace)

/-- `Math.ceil(x / 100) * 100` on a natural number: round up to the nearest
multiple of 100 (fee quantization used by V2 and V3). -/
def roundUp100 (x : ℕ) : ℕ := ((x + 99) / 100) * 100

/-- V1 `updateFeeStats` (`part_000`, lines 120-127): `p99` times the
priority multiplier, times 7, with no floor, ceiling or rounding. -/
def updateFeeStatsV1 (p99 : ℕ) : ℕ := p99 * configV1.feePriorityMultiplier * 7

/-- V2 `updateFeeStats` (`part_000`, lines 401-407):
`min(roundUp100(max(p80 * multiplier, baseFee)), maxFee)`. -/
def updateFeeStatsV2 (p80 mult baseFee maxFee : ℕ) : ℕ :=
  let fee := max (p80 * mult) baseFee
  min (roundUp100 fee) maxFee

/-- V3 `updateNetworkFees` (`part_000`, lines 758-780): clamp
`max(p80 * multiplier, baseFee)` to `maxFee` from above and to the network's
observed minimum charged fee from below, then round up to the nearest 100. -/
def updateNetworkFees (p80 mult baseFee maxFee netMin : ℕ) : ℕ :=
  let t1 := max (p80 * mult) baseFee
  let t2 := min t1 maxFee
  let t3 := max t2 netMin
  roundUp100 t3

/-- Modelled from the specification wording of claim C3: clamp a value to
the interval between a floor and a ceiling. -/
def clampFee (x lo hi : ℕ) : ℕ := min (max x lo) hi

/-- Modelled from the specification wording of claim C3: the fee quote
`clamp(max(pXX * multiplier, floor), floor, ceiling)` rounded up to the
nearest 100 units. -/
def specFeeQuote (p mult lo hi : ℕ) : ℕ :=
  roundUp100 (clampFee (max (p * mult) lo) lo hi)

/-- Error categories a submission can fail with; the taxonomy reflects the
spec's error-handling section.  The V1/V3 source catches every error the
same way, so the category is carried only as data here. -/
inductive SubmitError where
  | alreadyConsumed : SubmitError
  | invalidPayload : SubmitError
  | feeTooLow : SubmitError
  | transport : SubmitError
deriving DecidableEq

/-- Outcome of one submission round trip. -/
inductive SubmitOutcome where
  | ok : SubmitOutcome
  | err : SubmitError → SubmitOutcome
deriving DecidableEq

/-- Result of a retry sequence: the fee bid of every submission that was
performed, in order, and whether any submission succeeded. -/
structure RetryResult where
  bids : List ℕ
  confirmed : Bool
deriving DecidableEq

/-- The fee-bump retry loop of V1 `submitWithRetries` (`part_000`, lines
179-196): each remaining attempt multiplies the current fee by the priority
multiplier, rebuilds the fee-bump envelope and resubmits; a success returns
at once, a failure (of any category) continues to the next attempt. -/
def feeBumpLoop (outcome : ℕ → SubmitOutcome) (mult : ℕ) :
    ℕ → ℕ → ℕ → RetryResult
  | _, _, 0 => { bids := [], confirmed := false }
  | fee, attempt, remaining + 1 =>
      let fee2 := fee * mult
      match outcome attempt with
      | SubmitOutcome.ok => { bids := [fee2], confirmed := true }
      | SubmitOutcome.err _ =>
          let r := feeBumpLoop outcome mult fee2 (attempt + 1) remaining
          { bids := fee2 :: r.bids, confirmed := r.confirmed }

/-- V1 `submitWithRetries` (`part_000`, lines 170-198): submit the
pre-signed transaction once at the current fee; on any error run the
fee-bump loop for `maxA` further attempts.  `outcome n` is the ledger's
response to the n-th submission (the initial submission is n = 0). -/
def submitWithRetries (outcome : ℕ → SubmitOutcome) (fee0 mult maxA : ℕ) :
    RetryResult :=
  match outcome 0 with
  | SubmitOutcome.ok => { bids := [fee0], confirmed := true }
  | SubmitOutcome.err _ =>
      let r := feeBumpLoop outcome mult fee0 1 maxA
      { bids := fee0 :: r.bids, confirmed := r.confirmed }

/-- The retry recursion of V3 `prepareAndSubmitTransaction` (`part_000`,
lines 1181-1199), counting submission rounds: each round submits once and
increments the attempt counter; on failure it recurses while
`attempts < maxSubmissionAttempts`, otherwise it gives up.  The fuel
argument is an upper bound on the recursion depth. -/
def prepareLoop (outcome : ℕ → SubmitOutcome) (maxA : ℕ) : ℕ → ℕ → ℕ
  | 0, _ => 0
  | fuel + 1, k =>
      match outcome k with
      | SubmitOutcome.ok => 1
      | SubmitOutcome.err _ =>
          if k + 1 < maxA then 1 + prepareLoop outcome maxA fuel (k + 1) else 1

/-- Total number of submission rounds performed by V3
`prepareAndSubmitTransaction` starting from attempt counter 0. -/
def prepareSubmissions (outcome : ℕ → SubmitOutcome) (maxA : ℕ) : ℕ :=
  prepareLoop outcome maxA (maxA + 1) 0

/-- The per-balance scheduling step of V1 `start` (`part_000`, lines
229-241): a balance whose extracted unlock time is 0 is skipped; otherwise
the loop suspends for `max(unlockTime - earlySubmitOffset - now, 0)`
seconds before building and submitting. -/
def scheduleStep (p : Predicate) (now : ℤ) : Option ℤ :=
  let unlockTime := extractMinTime p
  if unlockTime = 0 then none
  else some (max ((unlockTime : ℤ) - (configV1.earlySubmitOffset : ℤ) - now) 0)

/-- Ledger-clock state of `PiNetworkPrecisionClaimBot`
(`src/pi-js-bot.js`): last observed close time (ms), the recent block
intervals (ms), and the moving-average block time (ms). -/
structure ClockState where
  lastClose : ℤ
  blockTimes : List ℤ
  avgBlockTimeMs : ℚ

/-- The fixed fallback block interval from the constructor
(`pi-js-bot.js`, line 66): 5000 ms. -/
def defaultBlockTimeMs : ℚ := 5000

/-- Clock state after `startBlockMonitoring` records its initial ledger
close at `t0` (`pi-js-bot.js`, lines 163-165): empty interval history and
the default average from the constructor. -/
def initClock (t0 : ℤ) : ClockState :=
  { lastClose := t0, blockTimes := [], avgBlockTimeMs := defaultBlockTimeMs }

/-- One new-block observation (`pi-js-bot.js`, lines 177-194): push the
interval since the last close, drop the oldest interval once more than 10
are held, recompute the average as sum over length, and remember the new
close time. -/
def observeBlock (st : ClockState) (t : ℤ) : ClockState :=
  let blockTime := t - st.lastClose
  let bt1 := st.blockTimes ++ [blockTime]
  let bt2 := if bt1.length > 10 then bt1.tail else bt1
  { lastClose := t, blockTimes := bt2,
    avgBlockTimeMs := ((bt2.sum : ℤ) : ℚ) / (bt2.length : ℚ) }

/-- The next-close estimate (`pi-js-bot.js`, line 239:
`lastLedgerCloseTime + avgBlockTimeMs`). -/
def estimateNextClose (st : ClockState) : ℚ :=
  (st.lastClose : ℚ) + st.avgBlockTimeMs

/-- Consecutive differences of a run of close times starting at `t0`
(reference function for stating the clock claims). -/
def diffs : ℤ → List ℤ → List ℤ
  | _, [] => []
  | prev, t :: rest => (t - prev) :: diffs t rest

/-- The `k` most recent elements of a list (reference function). -/
def lastN (k : ℕ) (l : List ℤ) : List ℤ := l.drop (l.length - k)

/-- One pre-built flood candidate of `prepareTransactions`
(`pi-js-bot.js`, lines 360-419): its fee, the sequence number of the
account object it was built from, and its build index. -/
structure FloodTx where
  fee : ℕ
  seq : ℕ
  index : ℕ
deriving DecidableEq

/-- `prepareTransactions` (`pi-js-bot.js`, lines 360-424): build `txCount`
candidates where candidate `i` bids `baseFee + i * feeIncrement` and is
built on a fresh account object at sequence `loadedSeq + 1` (the source
account is loaded once, before the loop), then sort the list by fee in
descending order (`sort((a, b) => b.fee - a.fee)`, a stable sort, modelled
by insertion sort under the same comparator). -/
def prepareTransactions (loadedSeq txCount baseFee feeIncrement : ℕ) :
    List FloodTx :=
  let built := (List.range txCount).map fun i =>
    { fee := baseFee + i * feeIncrement, seq := loadedSeq + 1, index := i }
  built.insertionSort fun a b => b.fee ≤ a.fee

/-- `executeFlood` submission delay (`pi-js-bot.js`, line 479): the i-th
candidate of the sorted list is submitted after `i * txSpacingMs`
milliseconds. -/
def floodStartTime (txSpacingMs i : ℕ) : ℕ := i * txSpacingMs

/-- Modelled from the spec's glossary: a ledger accepts a transaction
exactly when its sequence number is the account's current sequence plus
one, and acceptance advances the account's sequence to the transaction's. -/
def seqAcceptable (accountSeq : ℕ) (t : FloodTx) : Prop :=
  t.seq = accountSeq + 1

instance (s : ℕ) (t : FloodTx) : Decidable (seqAcceptable s t) := by
  unfold seqAcceptable; infer_instance

instance : IsTotal FloodTx (fun a b => b.fee ≤ a.fee) :=
  ⟨fun a b => le_total b.fee a.fee⟩

instance : IsTrans FloodTx (fun a b => b.fee ≤ a.fee) :=
  ⟨fun _ _ _ h1 h2 => le_trans h2 h1⟩

/-!
Theorems.  Shared helper lemmas come first, then one theorem per claim
(with witnesses or counterexamples where required).
-/

mutual

/-- The source's recursive predicate evaluation returns exactly the first
element of the document-order list of resolvable terminal bounds. -/
theorem findUnlock_eq_head (p : Predicate) :
    findUnlockTimeInPredicate p = (resolvedBounds p).head? := by
  cases p with
  | absBeforeEpoch t =>
      by_cases h : t = 0 <;> simp [findUnlockTimeInPredicate, resolvedBounds, h]
  | absAfter t => simp [findUnlockTimeInPredicate, resolvedBounds]
  | notPred q =>
      cases q with
      | absBeforeEpoch t =>
          by_cases h : t = 0 <;> simp [findUnlockTimeInPredicate, resolvedBounds, h]
      | absAfter t => simp [findUnlockTimeInPredicate, resolvedBounds]
      | notPred q2 => simp [findUnlockTimeInPredicate, resolvedBounds]
      | andPred cs => simp [findUnlockTimeInPredicate, resolvedBounds]
      | orPred cs => simp [findUnlockTimeInPredicate, resolvedBounds]
      | unconditional => simp [findUnlockTimeInPredicate, resolvedBounds]
  | andPred cs =>
      rw [findUnlockTimeInPredicate, resolvedBounds]
      exact findFirst_eq_head cs
  | orPred cs =>
      rw [findUnlockTimeInPredicate, resolvedBounds]
      exact findFirst_eq_head cs
  | unconditional => simp [findUnlockTimeInPredicate, resolvedBounds]

/-- List version of `findUnlock_eq_head`. -/
theorem findFirst_eq_head (ps : List Predicate) :
    findFirstUnlock ps = (resolvedBoundsList ps).head? := by
  cases ps with
  | nil => simp [findFirstUnlock, resolvedBoundsList]
  | cons p ps =>
      rw [findFirstUnlock, resolvedBoundsList, findUnlock_eq_head p]
      cases h : resolvedBounds p with
      | nil => simpa [h] using findFirst_eq_head ps
      | cons b bs => simp [h]

end

/-- Claim C1: on a balance whose predicate resolves to unlock time 1000,
V1 `buildAndSign` sets the validity-window lower bound to 1000 — the unlock
instant itself — and not to `unlockInstant - earlySubmitOffset = 999` as
the claim (and the function's own doc comment) states; the upper bound is
`unlockInstant + grace` and `lower ≤ unlock ≤ upper` does hold. -/
theorem claimC1_lower_bound_ignores_offset :
    (buildAndSignTimebounds (Predicate.notPred (Predicate.absBeforeEpoch 1000))).1
        = 1000
    ∧ (buildAndSignTimebounds (Predicate.notPred (Predicate.absBeforeEpoch 1000))).2
        = 1000 + configV1.timeboundGrace
    ∧ 1000 - configV1.earlySubmitOffset = 999
    ∧ (buildAndSignTimebounds (Predicate.notPred (Predicate.absBeforeEpoch 1000))).1
        ≠ 1000 - configV1.earlySubmitOffset
    ∧ (buildAndSignTimebounds (Predicate.notPred (Predicate.absBeforeEpoch 1000))).1
        ≤ 1000
    ∧ 1000 ≤ (buildAndSignTimebounds (Predicate.notPred (Predicate.absBeforeEpoch 1000))).2 := by
  decide

/-- Claim C2 counterexample: in the AND node
`and [not (abs_before_epoch 500), not (abs_before_epoch 100)]` the second
sibling resolves to 100000 ms, yet the evaluation returns 500000 ms — the
first resolving child, which is not ≤ every AND-sibling's bound; the same
tree under OR also returns 500000, not the earliest bound 100000. -/
theorem claimC2_counterexample :
    findUnlockTimeInPredicate
        (Predicate.andPred [Predicate.notPred (Predicate.absBeforeEpoch 500),
                            Predicate.notPred (Predicate.absBeforeEpoch 100)])
      = some 500000
    ∧ findUnlockTimeInPredicate (Predicate.notPred (Predicate.absBeforeEpoch 100))
      = some 100000
    ∧ ¬ (500000 ≤ 100000)
    ∧ findUnlockTimeInPredicate
        (Predicate.orPred [Predicate.notPred (Predicate.absBeforeEpoch 500),
                           Predicate.notPred (Predicate.absBeforeEpoch 100)])
      = some 500000 := by
  refine ⟨rfl, rfl, by decide, rfl⟩

/-- Claim C2 (amended): for every predicate tree the recursive evaluation
returns the leftmost resolvable terminal bound (milliseconds) — for AND and
OR alike the first child in document order whose subtree resolves wins —
and `none` exactly when no terminal bound resolves (the resource is then
skipped); AND and OR nodes are evaluated identically. -/
theorem claimC2_leftmost_bound :
    (∀ p : Predicate, findUnlockTimeInPredicate p = (resolvedBounds p).head?)
    ∧ (∀ cs : List Predicate,
        findUnlockTimeInPredicate (Predicate.andPred cs)
          = findUnlockTimeInPredicate (Predicate.orPred cs)) := by
  refine ⟨findUnlock_eq_head, fun cs => ?_⟩
  rw [findUnlockTimeInPredicate, findUnlockTimeInPredicate]

/-- Claim C3 counterexample: fee statistics with `p80 = 50000`,
multiplier 10, floor 100000, ceiling 500000 and a network minimum charged
fee of 600000 make V3 `updateNetworkFees` quote 600000 — not the claimed
`clamp(max(pXX * multiplier, floor), floor, ceiling)` rounded up, which is
500000 — because the source applies `Math.max(targetFee, fee_charged.min)`
after the ceiling clamp; the quote even exceeds the configured ceiling. -/
theorem claimC3_counterexample :
    updateNetworkFees 50000 10 100000 500000 600000 = 600000
    ∧ specFeeQuote 50000 10 100000 500000 = 500000
    ∧ ¬ (updateNetworkFees 50000 10 100000 500000 600000
          = specFeeQuote 50000 10 100000 500000)
    ∧ ¬ (updateNetworkFees 50000 10 100000 500000 600000 ≤ 500000) := by
  decide

/-- Claim C3 (amended): the V2 fee quote equals
`clamp(max(pXX * multiplier, floor), floor, ceiling)` rounded up to the
nearest 100 whenever the configured ceiling is a multiple of 100 (all
ceilings in the repository are); the V3 quote additionally clamps from
below by the network's minimum charged fee after the ceiling clamp, so it
equals the claimed expression whenever that minimum is at most the floor
(with floor at most ceiling), and otherwise — whenever the minimum is at
least the clamped bid — it returns the rounded-up network minimum instead,
which may exceed the ceiling; the spec's scenario `p99 = 50000`,
`multiplier = 10`, `floor = 100000`, `ceiling = 500000` yields the first
bid 500000, clamped to the ceiling. -/
theorem claimC3_fee_quote :
    (∀ p m lo hi : ℕ, 100 ∣ hi →
        updateFeeStatsV2 p m lo hi = specFeeQuote p m lo hi)
    ∧ (∀ p m lo hi netMin : ℕ, netMin ≤ lo → lo ≤ hi →
        updateNetworkFees p m lo hi netMin = specFeeQuote p m lo hi)
    ∧ (∀ p m lo hi netMin : ℕ, clampFee (max (p * m) lo) lo hi ≤ netMin →
        updateNetworkFees p m lo hi netMin = roundUp100 netMin)
    ∧ updateFeeStatsV2 50000 10 100000 500000 = 500000 := by
  refine ⟨fun p m lo hi hdvd => ?_, fun p m lo hi netMin h1 h2 => ?_,
    fun p m lo hi netMin h1 => ?_, by decide⟩
  · simp only [updateFeeStatsV2, specFeeQuote, clampFee, roundUp100]
    generalize p * m = x
    omega
  · simp only [updateNetworkFees, specFeeQuote, clampFee, roundUp100]
    generalize p * m = x
    omega
  · simp only [clampFee] at h1
    simp only [updateNetworkFees, roundUp100]
    generalize hx : p * m = x
    rw [hx] at h1
    omega

/-- Witness for C3 (amended): the scenario input for the V2 formula and
the matching branch of V3, and the counterexample's network minimum for
the divergent branch of V3. -/
theorem claimC3_fee_quote_witness :
    updateFeeStatsV2 50000 10 100000 500000 = specFeeQuote 50000 10 100000 500000
    ∧ updateNetworkFees 50000 10 100000 500000 100 = specFeeQuote 50000 10 100000 500000
    ∧ updateNetworkFees 50000 10 100000 500000 600000 = roundUp100 600000 :=
  ⟨claimC3_fee_quote.1 50000 10 100000 500000 ⟨5000, rfl⟩,
   claimC3_fee_quote.2.1 50000 10 100000 500000 100 (by decide) (by decide),
   claimC3_fee_quote.2.2.1 50000 10 100000 500000 600000 (by decide)⟩

/-- Claim C4: with fee stats `p99 = 50000` and every submission failing, V1
submits at the bids 3500000, 35000000, 350000000, 3500000000 stroops — a
non-decreasing sequence, but every bid exceeds the configured
`maxFee = 500000` ("0.05 PI ceiling for bidding"), which
`submitWithRetries` never consults. -/
theorem claimC4_bids_exceed_ceiling :
    (submitWithRetries (fun _ => SubmitOutcome.err SubmitError.feeTooLow)
        (updateFeeStatsV1 50000) configV1.feePriorityMultiplier
        configV1.maxSubmissionAttempts).bids
      = [3500000, 35000000, 350000000, 3500000000]
    ∧ List.Chain' (· ≤ ·) [3500000, 35000000, 350000000, 3500000000]
    ∧ configV1.maxFee = 500000
    ∧ ¬ (∀ b ∈ (submitWithRetries (fun _ => SubmitOutcome.err SubmitError.feeTooLow)
            (updateFeeStatsV1 50000) configV1.feePriorityMultiplier
            configV1.maxSubmissionAttempts).bids, b ≤ configV1.maxFee) := by
  refine ⟨rfl, by norm_num [List.chain'_cons], rfl, by decide⟩

/-- The retry loop treats any two outcome streams that succeed at the same
attempts identically: the error category is never inspected. -/
theorem feeBumpLoop_congr (o1 o2 : ℕ → SubmitOutcome) (mult : ℕ)
    (h : ∀ n, o1 n = SubmitOutcome.ok ↔ o2 n = SubmitOutcome.ok) :
    ∀ remaining fee attempt,
      feeBumpLoop o1 mult fee attempt remaining
        = feeBumpLoop o2 mult fee attempt remaining := by
  intro remaining
  induction remaining with
  | zero => intro fee attempt; rfl
  | succ n ih =>
      intro fee attempt
      rw [feeBumpLoop, feeBumpLoop]
      cases h1 : o1 attempt with
      | ok => rw [(h attempt).mp h1]
      | err e =>
          cases h2 : o2 attempt with
          | ok =>
              have := (h attempt).mpr h2
              rw [h1] at this
              exact absurd this (by simp)
          | err e2 => simp only [ih]

/-- With every attempt failing, the retry loop uses all its attempts and
never confirms. -/
theorem feeBumpLoop_allErr (o : ℕ → SubmitOutcome) (mult : ℕ)
    (ho : ∀ n, o n ≠ SubmitOutcome.ok) :
    ∀ remaining fee attempt,
      (feeBumpLoop o mult fee attempt remaining).bids.length = remaining
      ∧ (feeBumpLoop o mult fee attempt remaining).confirmed = false := by
  intro remaining
  induction remaining with
  | zero => intro fee attempt; exact ⟨rfl, rfl⟩
  | succ n ih =>
      intro fee attempt
      rw [feeBumpLoop]
      cases h1 : o attempt with
      | ok => exact absurd h1 (ho attempt)
      | err e => simpa using ih (fee * mult) (attempt + 1)

/-- The retry loop performs at most `remaining` submissions. -/
theorem feeBumpLoop_length_le (o : ℕ → SubmitOutcome) (mult : ℕ) :
    ∀ remaining fee attempt,
      (feeBumpLoop o mult fee attempt remaining).bids.length ≤ remaining := by
  intro remaining
  induction remaining with
  | zero => intro fee attempt; exact Nat.le_refl 0
  | succ n ih =>
      intro fee attempt
      rw [feeBumpLoop]
      cases o attempt with
      | ok => simp
      | err e => simpa using ih (fee * mult) (attempt + 1)

/-- The V3 retry recursion performs at most `maxA - k` submission rounds
when started at attempt counter `k < maxA`. -/
theorem prepareLoop_le (o : ℕ → SubmitOutcome) (maxA : ℕ) :
    ∀ fuel k, k < maxA → prepareLoop o maxA fuel k ≤ maxA - k := by
  intro fuel
  induction fuel with
  | zero => intro k hk; exact Nat.zero_le _
  | succ n ih =>
      intro k hk
      rw [prepareLoop]
      cases o k with
      | ok => simp only []; omega
      | err e =>
          simp only []
          by_cases h : k + 1 < maxA
          · have := ih (k + 1) h
            simp only [h, if_true]
            omega
          · simp only [h, if_false]
            omega

/-- Claim C5 counterexample: the initial submission is rejected with the
terminal category "already consumed", yet with `maxSubmissionAttempts = 3`
the engine performs 3 further fee-bump submissions (4 in total) instead of
halting after the rejection. -/
theorem claimC5_counterexample :
    (submitWithRetries (fun _ => SubmitOutcome.err SubmitError.alreadyConsumed)
        3500000 configV1.feePriorityMultiplier configV1.maxSubmissionAttempts).bids.length
      = 4
    ∧ ¬ ((submitWithRetries (fun _ => SubmitOutcome.err SubmitError.alreadyConsumed)
          3500000 configV1.feePriorityMultiplier configV1.maxSubmissionAttempts).bids.length
        = 1) := by
  decide

/-- Claim C5 (amended): every failed submission triggers a fee-bumped
retry regardless of its error category — the engine never inspects the
error, so outcome streams succeeding at the same attempts produce identical
behaviour, and a stream of only errors (terminal or not) always runs the
full sequence of `maxSubmissionAttempts + 1` submissions without
confirming. -/
theorem claimC5_retries_ignore_category :
    (∀ (o1 o2 : ℕ → SubmitOutcome) (fee0 mult maxA : ℕ),
        (∀ n, o1 n = SubmitOutcome.ok ↔ o2 n = SubmitOutcome.ok) →
        submitWithRetries o1 fee0 mult maxA = submitWithRetries o2 fee0 mult maxA)
    ∧ (∀ (e : SubmitError) (fee0 mult maxA : ℕ),
        (submitWithRetries (fun _ => SubmitOutcome.err e) fee0 mult maxA).bids.length
          = maxA + 1
        ∧ (submitWithRetries (fun _ => SubmitOutcome.err e) fee0 mult maxA).confirmed
          = false) := by
  constructor
  · intro o1 o2 fee0 mult maxA h
    rw [submitWithRetries, submitWithRetries]
    cases h1 : o1 0 with
    | ok => rw [(h 0).mp h1]
    | err e =>
        cases h2 : o2 0 with
        | ok =>
            have := (h 0).mpr h2
            rw [h1] at this
            exact absurd this (by simp)
        | err e2 => simp only [feeBumpLoop_congr o1 o2 mult h]
  · intro e fee0 mult maxA
    rw [submitWithRetries]
    have h := feeBumpLoop_allErr (fun _ => SubmitOutcome.err e) mult (by simp) maxA fee0 1
    simpa using h

/-- Witness for C5 (amended) at concrete inputs: an "already consumed"
stream and a transport-failure stream behave identically, and the terminal
stream performs all 4 submissions. -/
theorem claimC5_retries_ignore_category_witness :
    submitWithRetries (fun _ => SubmitOutcome.err SubmitError.alreadyConsumed) 100 10 3
      = submitWithRetries (fun _ => SubmitOutcome.err SubmitError.transport) 100 10 3
    ∧ (submitWithRetries (fun _ => SubmitOutcome.err SubmitError.alreadyConsumed)
        100 10 3).bids.length = 3 + 1 :=
  ⟨claimC5_retries_ignore_category.1
      (fun _ => SubmitOutcome.err SubmitError.alreadyConsumed)
      (fun _ => SubmitOutcome.err SubmitError.transport) 100 10 3 (fun n => by simp),
   (claimC5_retries_ignore_category.2 SubmitError.alreadyConsumed 100 10 3).1⟩

/-- Claim C6 counterexample: with `maxSubmissionAttempts = 3` and every
submission failing with a retryable transport error, V1 performs 4
submissions in total — the initial one plus 3 fee bumps — so the total is
not bounded by `maxSubmissionAttempts`. -/
theorem claimC6_counterexample :
    (submitWithRetries (fun _ => SubmitOutcome.err SubmitError.transport)
        100000 2 configV1.maxSubmissionAttempts).bids.length = 4
    ∧ ¬ ((submitWithRetries (fun _ => SubmitOutcome.err SubmitError.transport)
          100000 2 configV1.maxSubmissionAttempts).bids.length
        ≤ configV1.maxSubmissionAttempts) := by
  decide

/-- Claim C6 (amended): V1 `submitWithRetries` performs at most
`maxSubmissionAttempts + 1` submissions per resource (one initial plus the
retries); when every outcome is a failure it performs exactly that many,
ends unconfirmed (exhausted) and issues no further submissions; the V3
retry recursion `prepareAndSubmitTransaction` performs at most
`maxSubmissionAttempts` submission rounds. -/
theorem claimC6_submission_bound :
    (∀ (o : ℕ → SubmitOutcome) (fee0 mult maxA : ℕ),
        (submitWithRetries o fee0 mult maxA).bids.length ≤ maxA + 1)
    ∧ (∀ (o : ℕ → SubmitOutcome) (fee0 mult maxA : ℕ),
        (∀ n, o n ≠ SubmitOutcome.ok) →
        (submitWithRetries o fee0 mult maxA).confirmed = false
        ∧ (submitWithRetries o fee0 mult maxA).bids.length = maxA + 1)
    ∧ (∀ (o : ℕ → SubmitOutcome) (maxA : ℕ), 1 ≤ maxA →
        prepareSubmissions o maxA ≤ maxA) := by
  refine ⟨fun o fee0 mult maxA => ?_, fun o fee0 mult maxA ho => ?_,
    fun o maxA h1 => ?_⟩
  · rw [submitWithRetries]
    cases o 0 with
    | ok => simp
    | err e => simpa using feeBumpLoop_length_le o mult maxA fee0 1
  · rw [submitWithRetries]
    cases h0 : o 0 with
    | ok => exact absurd h0 (ho 0)
    | err e => simpa using (feeBumpLoop_allErr o mult ho maxA fee0 1).symm
  · have := prepareLoop_le o maxA (maxA + 1) 0 (by omega)
    rw [prepareSubmissions]
    omega

/-- Witness for C6 (amended) at concrete inputs. -/
theorem claimC6_submission_bound_witness :
    (submitWithRetries (fun _ => SubmitOutcome.err SubmitError.transport)
        100 2 5).bids.length ≤ 5 + 1
    ∧ (submitWithRetries (fun _ => SubmitOutcome.err SubmitError.transport)
        100 2 5).confirmed = false
    ∧ prepareSubmissions (fun _ => SubmitOutcome.err SubmitError.transport) 3 ≤ 3 :=
  ⟨claimC6_submission_bound.1 (fun _ => SubmitOutcome.err SubmitError.transport) 100 2 5,
   (claimC6_submission_bound.2.1 (fun _ => SubmitOutcome.err SubmitError.transport)
      100 2 5 (fun n => by simp)).1,
   claimC6_submission_bound.2.2 (fun _ => SubmitOutcome.err SubmitError.transport) 3
      (by decide)⟩

/-- Claim C7: for every balance whose extracted unlock time is nonzero the
V1 scheduler suspends for `max(unlockTime - earlySubmitOffset - now, 0)`
seconds before building and submitting, and in the spec's scenario — unlock
at `T`, `earlySubmitOffset = 1`, `now = T - 10` — the suspension is 9
seconds. -/
theorem claimC7_scheduler_wait :
    (∀ (p : Predicate) (now : ℤ), extractMinTime p ≠ 0 →
        scheduleStep p now
          = some (max ((extractMinTime p : ℤ) - (configV1.earlySubmitOffset : ℤ) - now) 0))
    ∧ (∀ T : ℕ, T ≠ 0 →
        scheduleStep (Predicate.notPred (Predicate.absBeforeEpoch T)) ((T : ℤ) - 10)
          = some 9) := by
  constructor
  · intro p now h
    rw [scheduleStep]
    simp [h]
  · intro T hT
    rw [scheduleStep]
    have h : extractMinTime (Predicate.notPred (Predicate.absBeforeEpoch T)) = T := rfl
    rw [h]
    simp only [hT, if_false]
    congr 1
    have : (T : ℤ) - (configV1.earlySubmitOffset : ℤ) - ((T : ℤ) - 10) = 9 := by
      have : (configV1.earlySubmitOffset : ℤ) = 1 := rfl
      omega
    rw [this]
    decide

/-- Witness for C7: a balance unlocking at epoch second 1000, polled at
`now = 990`, is scheduled after a 9 second wait. -/
theorem claimC7_scheduler_wait_witness :
    scheduleStep (Predicate.notPred (Predicate.absBeforeEpoch 1000)) 990 = some 9
    ∧ scheduleStep (Predicate.notPred (Predicate.absBeforeEpoch 1000)) 990
        = some (max ((extractMinTime (Predicate.notPred (Predicate.absBeforeEpoch 1000)) : ℤ)
            - (configV1.earlySubmitOffset : ℤ) - 990) 0) :=
  ⟨by
     have := claimC7_scheduler_wait.2 1000 (by decide)
     simpa using this,
   claimC7_scheduler_wait.1 (Predicate.notPred (Predicate.absBeforeEpoch 1000)) 990
     (by decide)⟩

/-- A cons cell's `getLastD` ignores its default once the tail is
nonempty. -/
theorem getLastD_cons_eq (a d : ℤ) (as : List ℤ) :
    (a :: as).getLastD d = as.getLastD a := by
  cases as with
  | nil => rfl
  | cons b bs =>
      have h : (b :: bs).getLast?.isSome := by simp
      cases hg : (b :: bs).getLast? with
      | none => rw [hg] at h; simp at h
      | some x => simp [List.getLastD_eq_getLast?, List.getLast?_cons_cons, hg]

/-- `getLastD` of a list ending in `a` is `a`. -/
theorem getLastD_snoc (l : List ℤ) (a d : ℤ) : (l ++ [a]).getLastD d = a := by
  simp [List.getLastD_eq_getLast?, List.getLast?_concat]

/-- Appending one close time appends one interval. -/
theorem diffs_snoc (t0 t : ℤ) (ts : List ℤ) :
    diffs t0 (ts ++ [t]) = diffs t0 ts ++ [t - ts.getLastD t0] := by
  induction ts generalizing t0 with
  | nil => simp [diffs]
  | cons a as ih =>
      rw [List.cons_append, diffs, ih a, diffs, getLastD_cons_eq]
      simp

/-- The push-then-shift step of the block monitor keeps exactly the 10 most
recent intervals. -/
theorem lastN_snoc_trim (ds : List ℤ) (d : ℤ) :
    (if (lastN 10 ds ++ [d]).length > 10 then (lastN 10 ds ++ [d]).tail
     else lastN 10 ds ++ [d]) = lastN 10 (ds ++ [d]) := by
  rcases le_or_lt ds.length 9 with h | h
  · have hdrop : ds.length - 10 = 0 := by omega
    have h2 : (ds ++ [d]).length - 10 = 0 := by simp; omega
    simp only [lastN, hdrop, List.drop_zero, h2]
    rw [if_neg]
    simp
    omega
  · have hk : lastN 10 ds = ds.drop (ds.length - 10) := rfl
    have hlen : (lastN 10 ds).length = 10 := by
      rw [hk, List.length_drop]; omega
    rw [if_pos (by simp [hlen])]
    have hne : lastN 10 ds ≠ [] := by
      intro hnil; rw [hnil] at hlen; simp at hlen
    cases hcase : lastN 10 ds with
    | nil => exact absurd hcase hne
    | cons a l =>
        have htail : (lastN 10 ds).tail = ds.drop (ds.length - 10 + 1) := by
          rw [hk, List.tail_drop]
        have hgoal : lastN 10 (ds ++ [d]) = ds.drop (ds.length - 10 + 1) ++ [d] := by
          rw [lastN]
          have hle : (ds ++ [d]).length - 10 = ds.length - 10 + 1 := by simp; omega
          rw [hle, List.drop_append_of_le_length (by omega)]
        rw [hgoal, ← htail, hcase]
        simp

/-- Full characterization of the clock state after any run of block
observations: the last close is the last observed time, the history holds
the 10 most recent intervals, and the average is their mean (or the default
when no interval has been observed yet). -/
theorem clock_fold (t0 : ℤ) (ts : List ℤ) :
    (ts.foldl observeBlock (initClock t0)).lastClose = ts.getLastD t0
    ∧ (ts.foldl observeBlock (initClock t0)).blockTimes = lastN 10 (diffs t0 ts)
    ∧ (ts.foldl observeBlock (initClock t0)).avgBlockTimeMs =
        (if ts = [] then defaultBlockTimeMs
         else ((lastN 10 (diffs t0 ts)).sum : ℚ) / ((lastN 10 (diffs t0 ts)).length : ℚ)) := by
  induction ts using List.reverseRecOn with
  | nil =>
      refine ⟨rfl, rfl, ?_⟩
      simp [initClock]
  | append_singleton ts t ih =>
      obtain ⟨h1, h2, h3⟩ := ih
      rw [List.foldl_append, List.foldl_cons, List.foldl_nil]
      have hbt : (observeBlock (ts.foldl observeBlock (initClock t0)) t).blockTimes
          = lastN 10 (diffs t0 (ts ++ [t])) := by
        rw [diffs_snoc]
        rw [← lastN_snoc_trim]
        simp only [observeBlock, h1, h2]
      have havg : (observeBlock (ts.foldl observeBlock (initClock t0)) t).avgBlockTimeMs
          = (((observeBlock (ts.foldl observeBlock (initClock t0)) t).blockTimes.sum : ℤ) : ℚ)
            / ((observeBlock (ts.foldl observeBlock (initClock t0)) t).blockTimes.length : ℚ) := by
        simp only [observeBlock]
      refine ⟨?_, hbt, ?_⟩
      · rw [getLastD_snoc]
        simp only [observeBlock]
      · rw [havg, hbt, if_neg (by simp)]

/-- Claim C8: after any run of block observations the next-close estimate
equals the last observed close time plus the arithmetic mean of the most
recent (at most 10) block intervals, and with fewer than two close samples
(no interval yet) it falls back to the fixed 5000 ms default; the interval
history is bounded at the 10 most recent samples. -/
theorem claimC8_next_close_estimate (t0 : ℤ) (ts : List ℤ) :
    estimateNextClose (ts.foldl observeBlock (initClock t0))
      = ((ts.getLastD t0 : ℤ) : ℚ)
        + (if ts = [] then defaultBlockTimeMs
           else ((lastN 10 (diffs t0 ts)).sum : ℚ) / ((lastN 10 (diffs t0 ts)).length : ℚ))
    ∧ (ts.foldl observeBlock (initClock t0)).blockTimes = lastN 10 (diffs t0 ts)
    ∧ (lastN 10 (diffs t0 ts)).length = min (diffs t0 ts).length 10 := by
  obtain ⟨h1, h2, h3⟩ := clock_fold t0 ts
  refine ⟨?_, h2, ?_⟩
  · rw [estimateNextClose, h1, h3]
  · rw [lastN, List.length_drop]
    omega

/-- Claim C9: every candidate built by `prepareTransactions` carries the
account sequence `loadedSeq + 1`, whatever its index; all candidates are
acceptable at the loaded sequence, and once any one of them is accepted
(advancing the account sequence) no candidate remains acceptable — at most
one of the flood's candidates can ever be included. -/
theorem claimC9_same_sequence :
    ∀ loadedSeq txCount baseFee inc : ℕ,
      (∀ t ∈ prepareTransactions loadedSeq txCount baseFee inc,
          t.seq = loadedSeq + 1)
      ∧ (∀ t1 t2 : FloodTx, t1 ∈ prepareTransactions loadedSeq txCount baseFee inc →
            t2 ∈ prepareTransactions loadedSeq txCount baseFee inc → t1.seq = t2.seq)
      ∧ (∀ t ∈ prepareTransactions loadedSeq txCount baseFee inc,
          seqAcceptable loadedSeq t)
      ∧ (∀ t1 t2 : FloodTx, t1 ∈ prepareTransactions loadedSeq txCount baseFee inc →
            t2 ∈ prepareTransactions loadedSeq txCount baseFee inc →
            ¬ seqAcceptable t1.seq t2) := by
  intro loadedSeq txCount baseFee inc
  have hseq : ∀ t ∈ prepareTransactions loadedSeq txCount baseFee inc,
      t.seq = loadedSeq + 1 := by
    intro t ht
    rw [prepareTransactions, List.mem_insertionSort, List.mem_map] at ht
    obtain ⟨i, _, rfl⟩ := ht
    rfl
  refine ⟨hseq, fun t1 t2 h1 h2 => by rw [hseq t1 h1, hseq t2 h2],
    fun t ht => hseq t ht, fun t1 t2 h1 h2 hacc => ?_⟩
  rw [seqAcceptable, hseq t1 h1, hseq t2 h2] at hacc
  omega

/-- Witness for C9: with loaded sequence 7, 3 candidates, base fee 100 and
increment 5, the highest-fee candidate carries sequence 8, is acceptable at
account sequence 7, and after accepting it the next candidate is not
acceptable. -/
theorem claimC9_same_sequence_witness :
    FloodTx.seq { fee := 110, seq := 8, index := 2 } = 7 + 1
    ∧ seqAcceptable 7 { fee := 110, seq := 8, index := 2 }
    ∧ ¬ seqAcceptable (FloodTx.seq { fee := 110, seq := 8, index := 2 })
        { fee := 105, seq := 8, index := 1 } :=
  ⟨(claimC9_same_sequence 7 3 100 5).1 { fee := 110, seq := 8, index := 2 } (by decide),
   (claimC9_same_sequence 7 3 100 5).2.2.1 { fee := 110, seq := 8, index := 2 } (by decide),
   (claimC9_same_sequence 7 3 100 5).2.2.2 { fee := 110, seq := 8, index := 2 }
     { fee := 105, seq := 8, index := 1 } (by decide) (by decide)⟩

/-- Claim C10: the prepared candidate list is sorted by fee in
non-increasing order, submission start times grow with position
(`i * txSpacingMs`), the head of the list has the maximal fee (so the
highest-fee candidate is submitted first), and along the list positions
fees are non-increasing while start times are non-decreasing. -/
theorem claimC10_flood_order :
    ∀ loadedSeq txCount baseFee inc spacing : ℕ,
      List.Sorted (fun a b : FloodTx => b.fee ≤ a.fee)
        (prepareTransactions loadedSeq txCount baseFee inc)
      ∧ (∀ t ∈ prepareTransactions loadedSeq txCount baseFee inc,
          ∀ h : prepareTransactions loadedSeq txCount baseFee inc ≠ [],
            t.fee ≤ ((prepareTransactions loadedSeq txCount baseFee inc).head h).fee)
      ∧ (∀ i j : ℕ, i ≤ j → floodStartTime spacing i ≤ floodStartTime spacing j)
      ∧ (∀ (i j : ℕ) (a b : FloodTx), i ≤ j →
          (prepareTransactions loadedSeq txCount baseFee inc)[i]? = some a →
          (prepareTransactions loadedSeq txCount baseFee inc)[j]? = some b →
          b.fee ≤ a.fee ∧ floodStartTime spacing i ≤ floodStartTime spacing j) := by
  intro loadedSeq txCount baseFee inc spacing
  have hsorted : List.Sorted (fun a b : FloodTx => b.fee ≤ a.fee)
      (prepareTransactions loadedSeq txCount baseFee inc) := by
    rw [prepareTransactions]
    exact List.sorted_insertionSort _ _
  have hstart : ∀ i j : ℕ, i ≤ j →
      floodStartTime spacing i ≤ floodStartTime spacing j := by
    intro i j hij
    rw [floodStartTime, floodStartTime]
    exact Nat.mul_le_mul_right spacing hij
  refine ⟨hsorted, ?_, hstart, ?_⟩
  · intro t ht h
    have hdecomp := List.head_cons_tail (prepareTransactions loadedSeq txCount baseFee inc) h
    rw [← hdecomp] at ht hsorted
    rcases List.mem_cons.mp ht with heq | hmem
    · rw [heq]
    · exact List.rel_of_sorted_cons hsorted t hmem
  · intro i j a b hij hi hj
    refine ⟨?_, hstart i j hij⟩
    rcases Nat.lt_or_ge i j with hlt | hge
    · have hi' := List.getElem?_eq_some_iff.mp hi
      have hj' := List.getElem?_eq_some_iff.mp hj
      obtain ⟨hilen, hia⟩ := hi'
      obtain ⟨hjlen, hjb⟩ := hj'
      have := (List.pairwise_iff_get.mp hsorted) ⟨i, hilen⟩ ⟨j, hjlen⟩ hlt
      simpa [List.get_eq_getElem, hia, hjb] using this
    · have hij' : i = j := by omega
      subst hij'
      rw [hi] at hj
      cases hj
      exact le_refl _

/-- Witness for C10 at loaded sequence 7, 3 candidates, base fee 100,
increment 5, spacing 15 ms. -/
theorem claimC10_flood_order_witness :
    List.Sorted (fun a b : FloodTx => b.fee ≤ a.fee) (prepareTransactions 7 3 100 5)
    ∧ floodStartTime 15 1 ≤ floodStartTime 15 2
    ∧ (FloodTx.fee { fee := 100, seq := 8, index := 0 }
          ≤ FloodTx.fee { fee := 110, seq := 8, index := 2 }
        ∧ floodStartTime 15 0 ≤ floodStartTime 15 2) :=
  ⟨(claimC10_flood_order 7 3 100 5 15).1,
   (claimC10_flood_order 7 3 100 5 15).2.2.1 1 2 (by decide),
   (claimC10_flood_order 7 3 100 5 15).2.2.2 0 2
     { fee := 110, seq := 8, index := 2 } { fee := 100, seq := 8, index := 0 }
     (by decide) (by decide) (by decide)⟩

end PiBot
